import Mathlib

/-!
# Verification of the F1 championship simulator core

Shallow embedding of `src/js/engine.js` and `src/js/scenarios.js` of the
`f1champstats` repository, together with proofs about its claimed
properties.  JavaScript numbers that the core uses as exact integers are
modelled as `Int` (points, wins, podiums, finishing positions); the
`null` finishing position is modelled as `none : Option Int`.  The three
contender records normally imported from `data.js` (a file not part of
the core sources) are treated as parameters.
-/

namespace F1

/-- A base driver record, as supplied by the external roster
(`BASE_DRIVERS` in `data.js`): identity, display name, team label,
pre-race cumulative points/wins/podiums and the contender flag. -/
structure Driver where
  id : String
  name : String
  team : String
  points : Int
  wins : Int
  podiums : Int
  isContender : Bool
deriving DecidableEq, Repr

/-- Modelled from the spec: `RACE_POINTS` lives in `data.js`, which is
missing from the repository sources; the spec fixes it as the lookup
table indexed by finishing position 1..10 with values
{1:25, 2:18, 3:15, 4:12, 5:10, 6:8, 7:6, 8:4, 9:2, 10:1}. -/
def RACE_POINTS (p : Int) : Int :=
  if p = 1 then 25
  else if p = 2 then 18
  else if p = 3 then 15
  else if p = 4 then 12
  else if p = 5 then 10
  else if p = 6 then 8
  else if p = 7 then 6
  else if p = 8 then 4
  else if p = 9 then 2
  else if p = 10 then 1
  else 0

/-- The enriched result produced by `calculateDriverResult` in
`engine.js`: the original driver fields (spread into the object) plus
the hypothetical finish and the computed totals. -/
structure DriverResult where
  id : String
  name : String
  team : String
  points : Int
  wins : Int
  podiums : Int
  isContender : Bool
  finishingPos : Option Int
  racePoints : Int
  finalPoints : Int
  finalWins : Int
  finalPodiums : Int
deriving DecidableEq, Repr

/-- `calculateDriverResult(baseDriver, finishingPos)` from `engine.js`
(lines 9-28).  `finishingPos` is a number or `null`; race points are
`RACE_POINTS[finishingPos]` when the position is non-null and in 1..10,
else 0; wins increment exactly when the position is `=== 1`; podiums
increment when the position is non-null and `<= 3` (note: no lower
bound in the source). -/
def calculateDriverResult (baseDriver : Driver) (finishingPos : Option Int) :
    DriverResult :=
  let racePoints :=
    match finishingPos with
    | some p => if p ≤ 10 ∧ p ≥ 1 then RACE_POINTS p else 0
    | none => 0
  let finalPoints := baseDriver.points + racePoints
  let finalWins := baseDriver.wins + (if finishingPos = some 1 then 1 else 0)
  let finalPodiums :=
    baseDriver.podiums +
      (match finishingPos with
       | some p => if p ≤ 3 then 1 else 0
       | none => 0)
  { id := baseDriver.id
    name := baseDriver.name
    team := baseDriver.team
    points := baseDriver.points
    wins := baseDriver.wins
    podiums := baseDriver.podiums
    isContender := baseDriver.isContender
    finishingPos := finishingPos
    racePoints := racePoints
    finalPoints := finalPoints
    finalWins := finalWins
    finalPodiums := finalPodiums }

/-- `a.name.localeCompare(b.name)` from `engine.js` line 50, modelled
as ordinary lexicographic string comparison (the driver names in this
application are plain ASCII, where `localeCompare` agrees with
code-unit order): negative when `a < b`, positive when `b < a`,
zero when equal. -/
def localeCompare (a b : String) : Int :=
  if a < b then -1 else if b < a then 1 else 0

/-- The comparator passed to `Array.prototype.sort` in `sortStandings`
(`engine.js` lines 40-51): final points descending, then final wins
descending, then final podiums descending, then name ascending. -/
def compareResults (a b : DriverResult) : Int :=
  if b.finalPoints ≠ a.finalPoints then b.finalPoints - a.finalPoints
  else if b.finalWins ≠ a.finalWins then b.finalWins - a.finalWins
  else if b.finalPodiums ≠ a.finalPodiums then b.finalPodiums - a.finalPodiums
  else localeCompare a.name b.name

/-- The non-strict order induced by the comparator: `a` may come no
later than `b` in the sorted output. -/
def resLE (a b : DriverResult) : Bool :=
  decide (compareResults a b ≤ 0)

/-- `sortStandings(results)` from `engine.js` (lines 39-52).
`Array.prototype.sort` with a consistent comparator produces a list
sorted by that comparator (stably, per ES2019); we embed it as a stable
merge sort by the comparator's non-strict order. -/
def sortStandings (results : List DriverResult) : List DriverResult :=
  results.mergeSort resLE

/-- The `{ champion, second, isTie }` object returned by
`determineChampion`. -/
structure ChampOutcome where
  champion : DriverResult
  second : Option DriverResult
  isTie : Bool
deriving DecidableEq, Repr

/-- `determineChampion(sortedResults)` from `engine.js` (lines 60-74):
position 0 is the champion, position 1 (when present) the runner-up,
and `isTie` holds exactly when the two agree on final points, final
wins and final podiums.  On an empty list the source would read
`undefined`; we return `none` (the callers always pass a non-empty
list). -/
def determineChampion : List DriverResult → Option ChampOutcome
  | [] => none
  | [c] => some { champion := c, second := none, isTie := false }
  | c :: s :: _ =>
    some { champion := c, second := some s,
           isTie := decide (c.finalPoints = s.finalPoints ∧
                            c.finalWins = s.finalWins ∧
                            c.finalPodiums = s.finalPodiums) }

/-- One candidate assignment of sweep positions (1..10, or 11 for
"no points / 11 or worse") to the three contenders, as pushed into
`winningScenarios` in `scenarios.js` (lines 66-70). -/
structure Scenario where
  norrisPos : Nat
  verstappenPos : Nat
  piastriPos : Nat
deriving DecidableEq, Repr

/-- The sweep range of `scenarios.js` (`for let pos = 1; pos <= MAX_POS`)
with `MAX_POS = 11`. -/
def posRange : List Nat := [1, 2, 3, 4, 5, 6, 7, 8, 9, 10, 11]

/-- Conversion of a sweep position to the argument passed to
`calculateDriverResult` (`scenarios.js` lines 49-51):
`pos > 10 ? null : pos`. -/
def toFinish (pos : Nat) : Option Int :=
  if pos > 10 then none else some (pos : Int)

/-- The body of the innermost loop of `findWinningScenarios`
(`scenarios.js` lines 31-72): skip the combination if Piastri collides
with either rival on a scoring position; otherwise score the three
contenders, rank, classify, and emit the combination iff the champion
is the target and there is no tie. -/
def emitScenario (norris verstappen piastri : Driver) (targetWinnerId : String)
    (posN posV posP : Nat) : Option Scenario :=
  if posP ≤ 10 ∧ ((posN ≤ 10 ∧ posN = posP) ∨ (posV ≤ 10 ∧ posV = posP))
  then none
  else
    match determineChampion (sortStandings
        [calculateDriverResult norris (toFinish posN),
         calculateDriverResult verstappen (toFinish posV),
         calculateDriverResult piastri (toFinish posP)]) with
    | some out =>
      if out.champion.id = targetWinnerId ∧ out.isTie = false then
        some { norrisPos := posN, verstappenPos := posV, piastriPos := posP }
      else none
    | none => none

/-- The innermost (`posP`) loop of `findWinningScenarios`. -/
def scanP (norris verstappen piastri : Driver) (targetWinnerId : String)
    (posN posV : Nat) : List Scenario :=
  posRange.filterMap (emitScenario norris verstappen piastri targetWinnerId posN posV)

/-- The middle (`posV`) loop of `findWinningScenarios`: the `continue`
at `scenarios.js` line 29 skips the whole inner loop when Norris and
Verstappen collide on a scoring position. -/
def scanV (norris verstappen piastri : Driver) (targetWinnerId : String)
    (posN : Nat) : List Scenario :=
  posRange.flatMap fun posV =>
    if posN ≤ 10 ∧ posV ≤ 10 ∧ posN = posV then []
    else scanP norris verstappen piastri targetWinnerId posN posV

/-- `findWinningScenarios(targetWinnerId)` from `scenarios.js`
(lines 20-76), parametrised by the three contender records that the
source obtains from `BASE_DRIVERS`.  The triple loop sweeps
`posN`, `posV`, `posP` over 1..11; combinations where two contenders
collide on a scoring position (both ≤ 10 and equal) are skipped; each
remaining combination is scored via `calculateDriverResult`,
`sortStandings` and `determineChampion`, and kept iff the classified
champion's id is the target's and `isTie` is false. -/
def findWinningScenarios (norris verstappen piastri : Driver)
    (targetWinnerId : String) : List Scenario :=
  posRange.flatMap (scanV norris verstappen piastri targetWinnerId)

/-- `sc[id + "Pos"]` from `scenarios.js` (lines 102 and 166): the
position field of a scenario selected by contender id.  Defined only
for the three contender ids the source ever uses (the strategy buttons
supply exactly `"norris"`, `"verstappen"`, `"piastri"`); theorems about
grouping restrict the target id accordingly. -/
def getPos (id : String) (sc : Scenario) : Nat :=
  if id = "norris" then sc.norrisPos
  else if id = "verstappen" then sc.verstappenPos
  else sc.piastriPos

/-- The list of valid contender ids, in the order of the literal
`["norris", "verstappen", "piastri"]` in `scenarios.js` line 119. -/
def contenderIds : List String := ["norris", "verstappen", "piastri"]

/-- `otherIds` from `scenarios.js` lines 119-121: the contender ids
other than the target, in roster order. -/
def otherIdsFor (targetId : String) : List String :=
  contenderIds.filter (fun id => id ≠ targetId)

/-- The running-minimum loop of `summarizeConstraints` (`scenarios.js`
lines 161-169): `minPos[id]` starts at 99 and is lowered to every
strictly smaller position the rival takes across the scenarios. -/
def minPosFor (id : String) (scenarios : List Scenario) : Nat :=
  scenarios.foldl
    (fun m sc => if getPos id sc < m then getPos id sc else m) 99

/-- `id.charAt(0).toUpperCase() + id.slice(1)` from `scenarios.js`
line 175. -/
def capitalizeId (id : String) : String :=
  match id.data with
  | [] => ""
  | c :: rest => String.mk (c.toUpper :: rest)

/-- The per-rival constraint text of `scenarios.js` line 176:
`"<Name> finishes <P-or-No Points> or lower"`. -/
def constraintText (id : String) (mp : Nat) : String :=
  capitalizeId id ++ " finishes " ++
    (if mp > 10 then "No Points" else "P" ++ toString mp) ++ " or lower"

/-- `summarizeConstraints(scenarios, otherIds)` from `scenarios.js`
(lines 150-180): one constraint per rival built from that rival's
minimum position across the scenarios, joined with `" AND <br>"`. -/
def summarizeConstraints (scenarios : List Scenario)
    (otherIds : List String) : String :=
  String.intercalate " AND <br>"
    (otherIds.map fun id => constraintText id (minPosFor id scenarios))

/-- One `{ position, description }` group pushed by `groupScenarios`. -/
structure ScenarioGroup where
  position : String
  description : String
deriving DecidableEq, Repr

/-- The display label of `scenarios.js` line 115:
`pos > 10 ? "No Points" : "P" + pos`. -/
def posLabel (pos : Nat) : String :=
  if pos > 10 then "No Points" else "P" ++ toString pos

/-- The iteration order of the bucket keys in `groupScenarios`:
`Object.keys(byTargetPos).sort((a, b) => a - b)` visits the distinct
target positions present in ascending numeric order. -/
def bucketKeys (targetId : String) (scenarios : List Scenario) : List Nat :=
  ((scenarios.map (getPos targetId)).dedup).mergeSort (fun a b => decide (a ≤ b))

/-- `groupScenarios(targetId, scenarios)` from `scenarios.js`
(lines 97-148): bucket the scenarios by the target's position, visit
the bucket keys in ascending numeric order, and emit one group per
bucket with the display label and the summarized rival constraints.
(Bucketing by `push` preserves the scenarios' relative order, which
`List.filter` reproduces.) -/
def groupScenarios (targetId : String) (scenarios : List Scenario) :
    List ScenarioGroup :=
  (bucketKeys targetId scenarios).map fun pos =>
    { position := posLabel pos
      description :=
        summarizeConstraints
          (scenarios.filter (fun sc => getPos targetId sc = pos))
          (otherIdsFor targetId) }

/-! ## Concrete example data used by witnesses and counterexamples -/

/-- A concrete roster entry for Norris used in concrete instances. -/
def exNorris : Driver :=
  { id := "norris", name := "Norris", team := "McLaren",
    points := 0, wins := 0, podiums := 0, isContender := true }

/-- A concrete roster entry for Verstappen used in concrete instances;
his large pre-race points total makes every non-colliding sweep
combination a winning scenario for him. -/
def exVerstappen : Driver :=
  { id := "verstappen", name := "Verstappen", team := "Red Bull",
    points := 100, wins := 0, podiums := 0, isContender := true }

/-- A concrete roster entry for Piastri used in concrete instances. -/
def exPiastri : Driver :=
  { id := "piastri", name := "Piastri", team := "McLaren",
    points := 0, wins := 0, podiums := 0, isContender := true }

/-- The table of race points as written in the spec, kept separate from
the (spec-modelled) `RACE_POINTS` so that the behaviour of
`calculateDriverResult` can be compared against the spec's words. -/
def specPointsTable (p : Int) : Int :=
  if p = 1 then 25
  else if p = 2 then 18
  else if p = 3 then 15
  else if p = 4 then 12
  else if p = 5 then 10
  else if p = 6 then 8
  else if p = 7 then 6
  else if p = 8 then 4
  else if p = 9 then 2
  else if p = 10 then 1
  else 0

/-! ## Claim C2: race points table and final points -/

/-- C2: for every contender and finishing position, the race points of
`calculateDriverResult` are exactly the fixed table value
{1:25, 2:18, 3:15, 4:12, 5:10, 6:8, 7:6, 8:4, 9:2, 10:1} when the
position is in 1..10, and exactly 0 outside 1..10 or for the `null`
sentinel; final points are pre-race points plus the race points. -/
theorem C2_race_points_table (d : Driver) (p : Int) :
    (calculateDriverResult d none).racePoints = 0 ∧
    (calculateDriverResult d (some p)).racePoints =
      (if 1 ≤ p ∧ p ≤ 10 then specPointsTable p else 0) ∧
    (calculateDriverResult d (some p)).finalPoints =
      d.points + (calculateDriverResult d (some p)).racePoints ∧
    (calculateDriverResult d none).finalPoints = d.points := by
  have htab : ∀ q : Int, RACE_POINTS q = specPointsTable q := fun _ => rfl
  refine ⟨rfl, ?_, rfl, by simp [calculateDriverResult]⟩
  simp only [calculateDriverResult, htab]
  by_cases h : 1 ≤ p ∧ p ≤ 10
  · rw [if_pos ⟨h.2, h.1⟩, if_pos h]
  · rw [if_neg (fun hc => h ⟨hc.2, hc.1⟩), if_neg h]

/-! ## Claim C4: champion classification -/

/-- C4: on a sorted sequence with at least two entries,
`determineChampion` returns the entry at position 0 as champion, the
entry at position 1 as second, and `isTie` holds iff the two agree on
final points, final wins and final podiums; on a singleton it returns
that entry as champion with no second and no tie. -/
theorem C4_determineChampion (c s : DriverResult) (rest : List DriverResult) :
    (∃ out, determineChampion (c :: s :: rest) = some out ∧
      out.champion = c ∧ out.second = some s ∧
      (out.isTie = true ↔
        (c.finalPoints = s.finalPoints ∧ c.finalWins = s.finalWins ∧
         c.finalPodiums = s.finalPodiums))) ∧
    (∃ out, determineChampion [c] = some out ∧
      out.champion = c ∧ out.second = none ∧ out.isTie = false) := by
  refine ⟨⟨_, rfl, rfl, rfl, ?_⟩, ⟨_, rfl, rfl, rfl, rfl⟩⟩
  simp [determineChampion]

/-! ## Claim C6 (corrected): wins and podiums updates -/

/-- C6 counterexample: at the out-of-domain position 0 (not in
{1,2,3}), `calculateDriverResult` still increments the podium count,
so the claim's podium rule fails as stated over all integers. -/
theorem C6_counterexample :
    (calculateDriverResult exVerstappen (some 0)).finalPodiums =
      exVerstappen.podiums + 1 ∧
    ¬((0 : Int) = 1 ∨ (0 : Int) = 2 ∨ (0 : Int) = 3) := by
  decide

/-- C6 (amended): final wins are pre-race wins plus 1 exactly when the
finish is 1; final podiums are pre-race podiums plus 1 exactly when the
finish is non-null and at most 3 — which coincides with the claimed
"finish ∈ {1,2,3}" rule whenever every non-null finish is at least 1
(the documented input domain); the function is total, so out-of-range
positions degrade gracefully rather than failing. -/
theorem C6_wins_podiums (d : Driver) (fp : Option Int) :
    (calculateDriverResult d fp).finalWins =
      d.wins + (if fp = some 1 then 1 else 0) ∧
    (calculateDriverResult d fp).finalPodiums =
      d.podiums + (match fp with
                   | none => 0
                   | some p => if p ≤ 3 then 1 else 0) ∧
    ((∀ p : Int, fp = some p → 1 ≤ p) →
      (calculateDriverResult d fp).finalPodiums =
        d.podiums + (if fp = some 1 ∨ fp = some 2 ∨ fp = some 3 then 1 else 0)) := by
  refine ⟨rfl, by cases fp <;> rfl, ?_⟩
  intro h
  cases fp with
  | none => simp [calculateDriverResult]
  | some p =>
    have hp : 1 ≤ p := h p rfl
    simp only [calculateDriverResult, Option.some.injEq]
    split_ifs <;> omega

/-- Closed instance of `C6_wins_podiums` at Verstappen finishing P2. -/
theorem C6_wins_podiums_witness :
    (calculateDriverResult exVerstappen (some 2)).finalPodiums =
      exVerstappen.podiums +
        (if (some (2 : Int)) = some 1 ∨ (some (2 : Int)) = some 2 ∨
            (some (2 : Int)) = some 3 then 1 else 0) :=
  (C6_wins_podiums exVerstappen (some 2)).2.2
    (fun p h => by cases h; omega)

/-! ## Claim C10: behaviour below the documented domain -/

/-- C10: for any non-null position `p ≤ 0`, `calculateDriverResult`
awards 0 race points and leaves wins (and points) unchanged, yet
increments the podium count by 1 — the podium condition checks only
`finish <= 3` with no lower bound — and still returns a result. -/
theorem C10_below_domain (d : Driver) (p : Int) (h : p ≤ 0) :
    (calculateDriverResult d (some p)).racePoints = 0 ∧
    (calculateDriverResult d (some p)).finalWins = d.wins ∧
    (calculateDriverResult d (some p)).finalPodiums = d.podiums + 1 ∧
    (calculateDriverResult d (some p)).finalPoints = d.points := by
  simp only [calculateDriverResult, Option.some.injEq]
  split_ifs <;> omega

/-- Closed instance of `C10_below_domain` at position -2. -/
theorem C10_below_domain_witness :
    (calculateDriverResult exNorris (some (-2))).racePoints = 0 ∧
    (calculateDriverResult exNorris (some (-2))).finalWins = exNorris.wins ∧
    (calculateDriverResult exNorris (some (-2))).finalPodiums =
      exNorris.podiums + 1 ∧
    (calculateDriverResult exNorris (some (-2))).finalPoints = exNorris.points :=
  C10_below_domain exNorris (-2) (by decide)

/-! ## Comparator theory for claim C3 -/

/-- Two results are championship-tied: equal on final points, final
wins and final podiums. -/
def tied3 (a b : DriverResult) : Prop :=
  a.finalPoints = b.finalPoints ∧ a.finalWins = b.finalWins ∧
    a.finalPodiums = b.finalPodiums

/-- `a` strictly precedes `b` on the championship statistics alone:
more final points, or equal points and more final wins, or equal
points and wins and more final podiums. -/
def statsBefore (a b : DriverResult) : Prop :=
  b.finalPoints < a.finalPoints ∨
  (b.finalPoints = a.finalPoints ∧ b.finalWins < a.finalWins) ∨
  (b.finalPoints = a.finalPoints ∧ b.finalWins = a.finalWins ∧
    b.finalPodiums < a.finalPodiums)

theorem localeCompare_le_iff (a b : String) : localeCompare a b ≤ 0 ↔ a ≤ b := by
  unfold localeCompare
  split_ifs with h1 h2
  · simp [h1.le]
  · simp [not_le.mpr h2]
  · simp [not_lt.mp h2]

theorem localeCompare_lt_iff (a b : String) : localeCompare a b < 0 ↔ a < b := by
  unfold localeCompare
  split_ifs with h1 h2
  · simp [h1]
  · simp [asymm h2]
  · simp [h1]

theorem localeCompare_eq_zero_iff (a b : String) :
    localeCompare a b = 0 ↔ a = b := by
  unfold localeCompare
  split_ifs with h1 h2
  · simp [ne_of_lt h1]
  · simp [(ne_of_lt h2).symm]
  · simp [le_antisymm (not_lt.mp h2) (not_lt.mp h1)]

theorem localeCompare_neg (a b : String) :
    localeCompare b a = -localeCompare a b := by
  unfold localeCompare
  rcases lt_trichotomy a b with h | h | h
  · rw [if_neg (asymm h), if_pos h, if_pos h]; decide
  · subst h; rw [if_neg (lt_irrefl a), if_neg (lt_irrefl a)]; decide
  · rw [if_pos h, if_neg (asymm h), if_pos h]

theorem compareResults_neg (a b : DriverResult) :
    compareResults b a = -compareResults a b := by
  unfold compareResults
  rw [localeCompare_neg a.name b.name]
  split_ifs <;> omega

theorem compareResults_le_iff (a b : DriverResult) :
    compareResults a b ≤ 0 ↔
      (statsBefore a b ∨ (tied3 a b ∧ a.name ≤ b.name)) := by
  rw [← localeCompare_le_iff a.name b.name]
  unfold compareResults statsBefore tied3
  split_ifs <;> omega

theorem compareResults_eq_zero_iff (a b : DriverResult) :
    compareResults a b = 0 ↔ (tied3 a b ∧ a.name = b.name) := by
  rw [← localeCompare_eq_zero_iff a.name b.name]
  unfold compareResults tied3
  split_ifs <;> omega

theorem resLE_trans (a b c : DriverResult) :
    resLE a b → resLE b c → resLE a c := by
  simp only [resLE, decide_eq_true_eq, compareResults_le_iff]
  rintro (hab | ⟨tab, nab⟩) (hbc | ⟨tbc, nbc⟩)
  · left; unfold statsBefore at *; omega
  · left; unfold statsBefore at hab ⊢; unfold tied3 at tbc; omega
  · left; unfold statsBefore at hbc ⊢; unfold tied3 at tab; omega
  · right
    refine ⟨⟨tab.1.trans tbc.1, tab.2.1.trans tbc.2.1, tab.2.2.trans tbc.2.2⟩,
      nab.trans nbc⟩

theorem resLE_total (a b : DriverResult) : resLE a b || resLE b a := by
  simp only [resLE, Bool.or_eq_true, decide_eq_true_eq]
  have h := compareResults_neg a b
  omega

/-- Two lists that are permutations of each other, both sorted by the
standings comparator, and whose driver names are pairwise distinct,
are equal: the comparator is antisymmetric on results with distinct
names. -/
theorem eq_of_sorted_of_perm_of_nodup_names :
    ∀ (l₁ l₂ : List DriverResult),
      l₁.Pairwise (fun a b => compareResults a b ≤ 0) →
      l₂.Pairwise (fun a b => compareResults a b ≤ 0) →
      l₁.Perm l₂ → (l₂.map (fun r => r.name)).Nodup → l₁ = l₂
  | [], l₂, _, _, hp, _ => (hp.symm.eq_nil).symm
  | a :: t₁, [], _, _, hp, _ => absurd hp.eq_nil (by simp)
  | a :: t₁, b :: t₂, hs₁, hs₂, hp, hn => by
    by_cases hab : a = b
    · subst hab
      have ht : t₁.Perm t₂ := hp.cons_inv
      have := eq_of_sorted_of_perm_of_nodup_names t₁ t₂
        (List.pairwise_cons.mp hs₁).2 (List.pairwise_cons.mp hs₂).2 ht
        (by simpa using hn.of_cons)
      rw [this]
    · exfalso
      have hbmem : b ∈ a :: t₁ := (hp.mem_iff).mpr (List.mem_cons_self b t₂)
      have hamem : a ∈ b :: t₂ := (hp.mem_iff).mp (List.mem_cons_self a t₁)
      have hbt₁ : b ∈ t₁ := by
        rcases List.mem_cons.mp hbmem with h | h
        · exact absurd h.symm hab
        · exact h
      have h₁ : compareResults a b ≤ 0 :=
        (List.pairwise_cons.mp hs₁).1 b hbt₁
      have h₂ : compareResults b a ≤ 0 := by
        rcases List.mem_cons.mp hamem with h | h
        · exact absurd h hab
        · exact (List.pairwise_cons.mp hs₂).1 a h
      have hz : compareResults a b = 0 := by
        have := compareResults_neg a b; omega
      have hname : a.name = b.name :=
        ((compareResults_eq_zero_iff a b).mp hz).2
      exact hab (List.inj_on_of_nodup_map hn hamem (List.mem_cons_self b t₂)
        hname)

/-! ## Claim C3: the standings comparator is a strict total order -/

/-- C3: for every pair of results exactly one of "a ranks before b on
the statistics", "b ranks before a on the statistics", or "a and b are
championship-tied (and then the comparator orders them by name
ascending)" holds; `sortStandings` returns a permutation of its input
that is pairwise ordered by the comparator — final points descending,
then final wins, then final podiums descending, then name ascending —
and for inputs with distinct names that ordered permutation is unique,
so the output is reproducible. -/
theorem C3_comparator_total_order :
    (∀ a b : DriverResult,
      (statsBefore a b ∧ ¬statsBefore b a ∧ ¬tied3 a b) ∨
      (statsBefore b a ∧ ¬statsBefore a b ∧ ¬tied3 a b) ∨
      (tied3 a b ∧ ¬statsBefore a b ∧ ¬statsBefore b a)) ∧
    (∀ a b : DriverResult,
      compareResults a b ≤ 0 ↔
        (statsBefore a b ∨ (tied3 a b ∧ a.name ≤ b.name))) ∧
    (∀ rs : List DriverResult,
      (sortStandings rs).Perm rs ∧
      (sortStandings rs).Pairwise (fun a b => compareResults a b ≤ 0)) ∧
    (∀ rs l : List DriverResult,
      (rs.map (fun r => r.name)).Nodup →
      l.Perm rs →
      l.Pairwise (fun a b => compareResults a b ≤ 0) →
      l = sortStandings rs) := by
  refine ⟨?_, compareResults_le_iff, ?_, ?_⟩
  · intro a b; unfold statsBefore tied3; omega
  · intro rs
    refine ⟨List.mergeSort_perm rs resLE, ?_⟩
    have h := List.sorted_mergeSort resLE_trans resLE_total rs
    exact h.imp (fun hab => by simpa [resLE, decide_eq_true_eq] using hab)
  · intro rs l hn hperm hsorted
    have hsortperm : (sortStandings rs).Perm rs := List.mergeSort_perm rs resLE
    have hnames : ((sortStandings rs).map (fun r => r.name)).Nodup :=
      ((hsortperm.map (fun r => r.name)).nodup_iff).mpr hn
    have hsorted₂ : (sortStandings rs).Pairwise
        (fun a b => compareResults a b ≤ 0) :=
      (List.sorted_mergeSort resLE_trans resLE_total rs).imp
        (fun hab => by simpa [resLE, decide_eq_true_eq] using hab)
    exact eq_of_sorted_of_perm_of_nodup_names l (sortStandings rs) hsorted
      hsorted₂ (hperm.trans hsortperm.symm) hnames

/-- `calculateDriverResult` applied to the concrete Norris record with
finish P1, used in closed instances. -/
def exResN : DriverResult := calculateDriverResult exNorris (some 1)

/-- `calculateDriverResult` applied to the concrete Verstappen record
with a no-points finish, used in closed instances. -/
def exResV : DriverResult := calculateDriverResult exVerstappen none

/-- Closed instance of `C3_comparator_total_order`: the unique sorted
order of the two concrete results puts Verstappen (100 points) before
Norris (25 points). -/
theorem C3_comparator_total_order_witness :
    [exResV, exResN] = sortStandings [exResN, exResV] :=
  C3_comparator_total_order.2.2.2 [exResN, exResV] [exResV, exResN]
    (by decide) (by decide) (by decide)

/-! ## Membership characterisation of the scenario sweep -/

/-- Whatever `emitScenario` emits is the swept combination itself, the
Piastri collision rule was not violated, and re-running the
calculator/rank/classify pipeline on it classifies the target as
sole (non-tied) champion. -/
theorem emitScenario_spec {norris verstappen piastri : Driver} {t : String}
    {posN posV posP : Nat} {sc : Scenario}
    (h : emitScenario norris verstappen piastri t posN posV posP = some sc) :
    sc = ⟨posN, posV, posP⟩ ∧
    ¬(posP ≤ 10 ∧ ((posN ≤ 10 ∧ posN = posP) ∨ (posV ≤ 10 ∧ posV = posP))) ∧
    ∃ out, determineChampion (sortStandings
        [calculateDriverResult norris (toFinish posN),
         calculateDriverResult verstappen (toFinish posV),
         calculateDriverResult piastri (toFinish posP)]) = some out ∧
      out.champion.id = t ∧ out.isTie = false := by
  unfold emitScenario at h
  split_ifs at h with hcol
  cases hD : determineChampion (sortStandings
      [calculateDriverResult norris (toFinish posN),
       calculateDriverResult verstappen (toFinish posV),
       calculateDriverResult piastri (toFinish posP)]) with
  | none => rw [hD] at h; exact absurd h (by simp)
  | some out =>
    rw [hD] at h
    have h2 : (if out.champion.id = t ∧ out.isTie = false then
        some (Scenario.mk posN posV posP) else none) = some sc := h
    split_ifs at h2 with hwin
    exact ⟨(Option.some.inj h2).symm, hcol, out, rfl, hwin.1, hwin.2⟩

/-- Membership in the inner (`posP`) loop's output. -/
theorem mem_scanP {norris verstappen piastri : Driver} {t : String}
    {posN posV : Nat} {sc : Scenario}
    (h : sc ∈ scanP norris verstappen piastri t posN posV) :
    ∃ posP ∈ posRange,
      emitScenario norris verstappen piastri t posN posV posP = some sc := by
  obtain ⟨posP, hP, hemit⟩ := List.mem_filterMap.mp h
  exact ⟨posP, hP, hemit⟩

/-- Membership in the middle (`posV`) loop's output. -/
theorem mem_scanV {norris verstappen piastri : Driver} {t : String}
    {posN : Nat} {sc : Scenario}
    (h : sc ∈ scanV norris verstappen piastri t posN) :
    ∃ posV ∈ posRange,
      ¬(posN ≤ 10 ∧ posV ≤ 10 ∧ posN = posV) ∧
      sc ∈ scanP norris verstappen piastri t posN posV := by
  obtain ⟨posV, hV, hmem⟩ := List.mem_flatMap.mp h
  by_cases hskip : posN ≤ 10 ∧ posV ≤ 10 ∧ posN = posV
  · rw [if_pos hskip] at hmem
    exact absurd hmem (List.not_mem_nil sc)
  · rw [if_neg hskip] at hmem
    exact ⟨posV, hV, hskip, hmem⟩

/-- Every scenario in the output of `findWinningScenarios` has its
three positions in the sweep range, violates neither collision skip,
and classifies the target as sole (non-tied) champion when re-scored. -/
theorem mem_findWinningScenarios {norris verstappen piastri : Driver}
    {t : String} {sc : Scenario}
    (h : sc ∈ findWinningScenarios norris verstappen piastri t) :
    sc.norrisPos ∈ posRange ∧ sc.verstappenPos ∈ posRange ∧
    sc.piastriPos ∈ posRange ∧
    ¬(sc.norrisPos ≤ 10 ∧ sc.verstappenPos ≤ 10 ∧
        sc.norrisPos = sc.verstappenPos) ∧
    ¬(sc.piastriPos ≤ 10 ∧
        ((sc.norrisPos ≤ 10 ∧ sc.norrisPos = sc.piastriPos) ∨
         (sc.verstappenPos ≤ 10 ∧ sc.verstappenPos = sc.piastriPos))) ∧
    ∃ out, determineChampion (sortStandings
        [calculateDriverResult norris (toFinish sc.norrisPos),
         calculateDriverResult verstappen (toFinish sc.verstappenPos),
         calculateDriverResult piastri (toFinish sc.piastriPos)]) = some out ∧
      out.champion.id = t ∧ out.isTie = false := by
  obtain ⟨posN, hN, hmemV⟩ := List.mem_flatMap.mp h
  obtain ⟨posV, hV, hskip, hmemP⟩ := mem_scanV hmemV
  obtain ⟨posP, hP, hemit⟩ := mem_scanP hmemP
  obtain ⟨hsc, hcol, hwin⟩ := emitScenario_spec hemit
  subst hsc
  exact ⟨hN, hV, hP, hskip, hcol, hwin⟩

/-! ## Claim C1: retained scenarios make the target sole champion -/

/-- C1: for every target id and every scenario returned by
`findWinningScenarios`, recomputing the three enriched results,
ranking them and classifying them yields a champion whose id equals
the target and `isTie = false`; tied-for-first combinations are never
retained. -/
theorem C1_winning_scenarios_sole_champion
    (norris verstappen piastri : Driver) (targetId : String) (sc : Scenario)
    (h : sc ∈ findWinningScenarios norris verstappen piastri targetId) :
    ∃ out, determineChampion (sortStandings
        [calculateDriverResult norris (toFinish sc.norrisPos),
         calculateDriverResult verstappen (toFinish sc.verstappenPos),
         calculateDriverResult piastri (toFinish sc.piastriPos)]) = some out ∧
      out.champion.id = targetId ∧ out.isTie = false :=
  (mem_findWinningScenarios h).2.2.2.2.2

unseal List.merge List.mergeSort in
/-- Closed instance of `C1_winning_scenarios_sole_champion` at the
concrete roster and the scenario (N=1, V=2, P=3). -/
theorem C1_winning_scenarios_sole_champion_witness :
    ∃ out, determineChampion (sortStandings
        [calculateDriverResult exNorris (toFinish (Scenario.mk 1 2 3).norrisPos),
         calculateDriverResult exVerstappen (toFinish (Scenario.mk 1 2 3).verstappenPos),
         calculateDriverResult exPiastri (toFinish (Scenario.mk 1 2 3).piastriPos)]) = some out ∧
      out.champion.id = "verstappen" ∧ out.isTie = false :=
  C1_winning_scenarios_sole_champion exNorris exVerstappen exPiastri
    "verstappen" (Scenario.mk 1 2 3) (by decide)

/-! ## Claim C5: no duplicated scoring positions -/

/-- C5: no scenario returned by `findWinningScenarios` assigns the
same scoring position (1..10) to two different contenders; only the
no-points value (11) may be shared. -/
theorem C5_no_scoring_collision
    (norris verstappen piastri : Driver) (targetId : String) (sc : Scenario)
    (h : sc ∈ findWinningScenarios norris verstappen piastri targetId) :
    (sc.norrisPos ≤ 10 → sc.verstappenPos ≤ 10 →
      sc.norrisPos ≠ sc.verstappenPos) ∧
    (sc.norrisPos ≤ 10 → sc.piastriPos ≤ 10 →
      sc.norrisPos ≠ sc.piastriPos) ∧
    (sc.verstappenPos ≤ 10 → sc.piastriPos ≤ 10 →
      sc.verstappenPos ≠ sc.piastriPos) := by
  obtain ⟨-, -, -, h1, h2, -⟩ := mem_findWinningScenarios h
  refine ⟨fun hn hv => ?_, fun hn hp => ?_, fun hv hp => ?_⟩ <;> omega

unseal List.merge List.mergeSort in
/-- Closed instance of `C5_no_scoring_collision` at the concrete
roster and the scenario (N=1, V=2, P=3). -/
theorem C5_no_scoring_collision_witness :
    ((Scenario.mk 1 2 3).norrisPos ≤ 10 → (Scenario.mk 1 2 3).verstappenPos ≤ 10 →
      (Scenario.mk 1 2 3).norrisPos ≠ (Scenario.mk 1 2 3).verstappenPos) ∧
    ((Scenario.mk 1 2 3).norrisPos ≤ 10 → (Scenario.mk 1 2 3).piastriPos ≤ 10 →
      (Scenario.mk 1 2 3).norrisPos ≠ (Scenario.mk 1 2 3).piastriPos) ∧
    ((Scenario.mk 1 2 3).verstappenPos ≤ 10 → (Scenario.mk 1 2 3).piastriPos ≤ 10 →
      (Scenario.mk 1 2 3).verstappenPos ≠ (Scenario.mk 1 2 3).piastriPos) :=
  C5_no_scoring_collision exNorris exVerstappen exPiastri "verstappen"
    (Scenario.mk 1 2 3) (by decide)

/-! ## Claim C7 (corrected): output order of the sweep -/

/-- The strict order in which the sweep of `findWinningScenarios`
emits scenarios: ascending by Norris's position (the outermost loop),
then by Verstappen's, then by Piastri's — regardless of which
contender is the target. -/
def sweepLT (s₁ s₂ : Scenario) : Prop :=
  s₁.norrisPos < s₂.norrisPos ∨
  (s₁.norrisPos = s₂.norrisPos ∧
    (s₁.verstappenPos < s₂.verstappenPos ∨
     (s₁.verstappenPos = s₂.verstappenPos ∧ s₁.piastriPos < s₂.piastriPos)))

/-- Elements of the inner loop's output carry the outer loop indices. -/
theorem scanP_shape {norris verstappen piastri : Driver} {t : String}
    {posN posV : Nat} {sc : Scenario}
    (h : sc ∈ scanP norris verstappen piastri t posN posV) :
    sc.norrisPos = posN ∧ sc.verstappenPos = posV := by
  obtain ⟨posP, _, hemit⟩ := mem_scanP h
  obtain ⟨hsc, -, -⟩ := emitScenario_spec hemit
  subst hsc
  exact ⟨rfl, rfl⟩

/-- Elements of the middle loop's output carry the outer loop index. -/
theorem scanV_shape {norris verstappen piastri : Driver} {t : String}
    {posN : Nat} {sc : Scenario}
    (h : sc ∈ scanV norris verstappen piastri t posN) :
    sc.norrisPos = posN := by
  obtain ⟨posV, _, _, hmem⟩ := mem_scanV h
  exact (scanP_shape hmem).1

theorem scanP_pairwise (norris verstappen piastri : Driver) (t : String)
    (posN posV : Nat) :
    (scanP norris verstappen piastri t posN posV).Pairwise sweepLT := by
  unfold scanP
  refine List.Pairwise.filterMap _ ?_ (show posRange.Pairwise (· < ·) by decide)
  intro pa pb hlt x hx y hy
  obtain ⟨hxe, -, -⟩ := emitScenario_spec (Option.mem_def.mp hx)
  obtain ⟨hye, -, -⟩ := emitScenario_spec (Option.mem_def.mp hy)
  subst hxe; subst hye
  exact Or.inr ⟨rfl, Or.inr ⟨rfl, hlt⟩⟩

theorem scanV_pairwise (norris verstappen piastri : Driver) (t : String)
    (posN : Nat) :
    (scanV norris verstappen piastri t posN).Pairwise sweepLT := by
  unfold scanV
  rw [List.pairwise_flatMap]
  constructor
  · intro posV _
    split_ifs
    · exact List.Pairwise.nil
    · exact scanP_pairwise norris verstappen piastri t posN posV
  · refine (show posRange.Pairwise (· < ·) by decide).imp ?_
    intro v₁ v₂ hlt x hx y hy
    have hx' : x ∈ scanP norris verstappen piastri t posN v₁ := by
      by_cases hc : posN ≤ 10 ∧ v₁ ≤ 10 ∧ posN = v₁
      · rw [if_pos hc] at hx; exact absurd hx (List.not_mem_nil x)
      · rwa [if_neg hc] at hx
    have hy' : y ∈ scanP norris verstappen piastri t posN v₂ := by
      by_cases hc : posN ≤ 10 ∧ v₂ ≤ 10 ∧ posN = v₂
      · rw [if_pos hc] at hy; exact absurd hy (List.not_mem_nil y)
      · rwa [if_neg hc] at hy
    obtain ⟨hxn, hxv⟩ := scanP_shape hx'
    obtain ⟨hyn, hyv⟩ := scanP_shape hy'
    exact Or.inr ⟨hxn.trans hyn.symm, Or.inl (by rw [hxv, hyv]; exact hlt)⟩

unseal List.merge List.mergeSort in
/-- C7 counterexample: with a concrete roster, the winning list for
target `"verstappen"` contains the scenario (N=1, V=2, P=3) at index 0
and (N=2, V=1, P=3) at index 91, so the output is NOT ordered
ascending by the target contender's position first (2 precedes 1). -/
theorem C7_counterexample :
    (findWinningScenarios exNorris exVerstappen exPiastri "verstappen").get? 0 =
      some (Scenario.mk 1 2 3) ∧
    (findWinningScenarios exNorris exVerstappen exPiastri "verstappen").get? 91 =
      some (Scenario.mk 2 1 3) ∧
    getPos "verstappen" (Scenario.mk 1 2 3) = 2 ∧
    getPos "verstappen" (Scenario.mk 2 1 3) = 1 ∧
    ¬(2 ≤ 1) := by
  refine ⟨by decide, by decide, rfl, rfl, by decide⟩

/-- C7 (amended): for every roster and target id, the list returned by
`findWinningScenarios` is ordered by the sweep's fixed nesting order —
strictly ascending lexicographically by (norrisPos, verstappenPos,
piastriPos); this coincides with "ascending by the target's position
first" only when the target is the outermost-swept contender. -/
theorem C7_sweep_order (norris verstappen piastri : Driver) (t : String) :
    (findWinningScenarios norris verstappen piastri t).Pairwise sweepLT := by
  unfold findWinningScenarios
  rw [List.pairwise_flatMap]
  constructor
  · intro posN _
    exact scanV_pairwise norris verstappen piastri t posN
  · refine (show posRange.Pairwise (· < ·) by decide).imp ?_
    intro n₁ n₂ hlt x hx y hy
    exact Or.inl (by rw [scanV_shape hx, scanV_shape hy]; exact hlt)

/-! ## Running-minimum lemmas for the constraint summariser -/

theorem foldl_min_le_init (id : String) :
    ∀ (l : List Scenario) (m : Nat),
      l.foldl (fun m sc => if getPos id sc < m then getPos id sc else m) m ≤ m
  | [], _ => le_refl _
  | sc :: l, m => by
    refine le_trans (foldl_min_le_init id l _) ?_
    show (if getPos id sc < m then getPos id sc else m) ≤ m
    split_ifs with h
    · exact le_of_lt h
    · exact le_refl _

theorem foldl_min_le_mem (id : String) :
    ∀ (l : List Scenario) (m : Nat) (sc : Scenario), sc ∈ l →
      l.foldl (fun m sc => if getPos id sc < m then getPos id sc else m) m ≤
        getPos id sc
  | [], _, _, h => absurd h (List.not_mem_nil _)
  | a :: l, m, sc, h => by
    rcases List.mem_cons.mp h with rfl | h
    · refine le_trans (foldl_min_le_init id l _) ?_
      show (if getPos id sc < m then getPos id sc else m) ≤ getPos id sc
      split_ifs with hlt
      · exact le_refl _
      · exact not_lt.mp hlt
    · exact foldl_min_le_mem id l _ sc h

theorem foldl_min_mem (id : String) :
    ∀ (l : List Scenario) (m : Nat),
      l.foldl (fun m sc => if getPos id sc < m then getPos id sc else m) m = m ∨
      ∃ sc ∈ l,
        l.foldl (fun m sc => if getPos id sc < m then getPos id sc else m) m =
          getPos id sc
  | [], _ => Or.inl rfl
  | a :: l, m => by
    rcases foldl_min_mem id l (if getPos id a < m then getPos id a else m) with
      h | ⟨sc, hmem, h⟩
    · by_cases hlt : getPos id a < m
      · right
        exact ⟨a, List.mem_cons_self a l, by rw [List.foldl_cons, h, if_pos hlt]⟩
      · left
        rw [List.foldl_cons, h, if_neg hlt]
    · right
      exact ⟨sc, List.mem_cons_of_mem a hmem, by rw [List.foldl_cons, h]⟩

/-! ## Claim C8 (corrected): bucket descriptions -/

unseal List.merge List.mergeSort in
/-- C8 counterexample: on the bucket with rival assignments
{(V=4, P=5), (V=5, P=5), (V=4, P=6)} for target `"norris"`, the
produced description joins the two rival constraints with
`" AND <br>"` (an embedded HTML line break), not with the plain
`" AND "` the claim states. -/
theorem C8_counterexample :
    groupScenarios "norris"
        [Scenario.mk 1 4 5, Scenario.mk 1 5 5, Scenario.mk 1 4 6] =
      [{ position := "P1",
         description :=
           "Verstappen finishes P4 or lower AND <br>Piastri finishes P5 or lower" }] ∧
    "Verstappen finishes P4 or lower AND <br>Piastri finishes P5 or lower" ≠
      "Verstappen finishes P4 or lower AND Piastri finishes P5 or lower" := by
  exact ⟨by decide, by decide⟩

/-- C8 (amended): for every non-empty bucket and every rival id, the
summariser's per-rival value is exactly the minimum position that
rival achieves across the bucket (the running minimum starts at 99, so
any bucket of sweep positions < 99 realises it); one constraint
"<Rival> finishes <position-or-No Points> or lower" is rendered per
rival and the constraints are joined with `" AND <br>"`; on the
claim's example bucket this yields
"Verstappen finishes P4 or lower AND <br>Piastri finishes P5 or lower". -/
theorem C8_rival_minimum :
    (∀ (scs : List Scenario) (id : String), scs ≠ [] →
      (∀ sc ∈ scs, getPos id sc < 99) →
      ((∃ sc ∈ scs, minPosFor id scs = getPos id sc) ∧
       ∀ sc ∈ scs, minPosFor id scs ≤ getPos id sc)) ∧
    summarizeConstraints
        [Scenario.mk 1 4 5, Scenario.mk 1 5 5, Scenario.mk 1 4 6]
        (otherIdsFor "norris") =
      "Verstappen finishes P4 or lower AND <br>Piastri finishes P5 or lower" := by
  constructor
  · intro scs id hne hsmall
    constructor
    · rcases foldl_min_mem id scs 99 with h | h
      · obtain ⟨sc₀, hmem⟩ := List.exists_mem_of_ne_nil scs hne
        have h1 : minPosFor id scs ≤ getPos id sc₀ :=
          foldl_min_le_mem id scs 99 sc₀ hmem
        have h2 := hsmall sc₀ hmem
        unfold minPosFor at *
        omega
      · exact h
    · exact fun sc hmem => foldl_min_le_mem id scs 99 sc hmem
  · decide

/-- Closed instance of `C8_rival_minimum` on the example bucket and
the rival `"verstappen"`. -/
theorem C8_rival_minimum_witness :
    (∃ sc ∈ [Scenario.mk 1 4 5, Scenario.mk 1 5 5, Scenario.mk 1 4 6],
      minPosFor "verstappen"
          [Scenario.mk 1 4 5, Scenario.mk 1 5 5, Scenario.mk 1 4 6] =
        getPos "verstappen" sc) ∧
    ∀ sc ∈ [Scenario.mk 1 4 5, Scenario.mk 1 5 5, Scenario.mk 1 4 6],
      minPosFor "verstappen"
          [Scenario.mk 1 4 5, Scenario.mk 1 5 5, Scenario.mk 1 4 6] ≤
        getPos "verstappen" sc :=
  C8_rival_minimum.1
    [Scenario.mk 1 4 5, Scenario.mk 1 5 5, Scenario.mk 1 4 6]
    "verstappen" (by decide) (by decide)

/-! ## Claim C9: one group per occupied position, ascending -/

/-- C9: for every target id and scenario list, `groupScenarios` emits
its groups indexed by a strictly ascending list of exactly the target
positions that occur among the scenarios (so the no-points value 11
comes after all scoring positions), one group per such position,
labeled "P<n>" for positions up to 10 and "No Points" beyond. -/
theorem C9_group_order (t : String) (scs : List Scenario) :
    ∃ keys : List Nat,
      keys.Pairwise (· < ·) ∧
      (∀ p : Nat, p ∈ keys ↔ ∃ sc ∈ scs, getPos t sc = p) ∧
      groupScenarios t scs =
        keys.map fun pos =>
          { position := if pos > 10 then "No Points" else "P" ++ toString pos
            description :=
              summarizeConstraints
                (scs.filter fun sc => getPos t sc = pos)
                (otherIdsFor t) } := by
  refine ⟨bucketKeys t scs, ?_, ?_, rfl⟩
  · have hsorted : (bucketKeys t scs).Pairwise (fun a b : Nat => a ≤ b) :=
      (List.sorted_mergeSort
        (fun a b c h₁ h₂ => by
          simp only [decide_eq_true_eq] at *; omega)
        (fun a b => by
          simp only [Bool.or_eq_true, decide_eq_true_eq]; omega)
        ((scs.map (getPos t)).dedup)).imp
        (fun h => by simpa using h)
    have hnodup : (bucketKeys t scs).Nodup :=
      ((List.mergeSort_perm ((scs.map (getPos t)).dedup) _).nodup_iff).mpr
        (List.nodup_dedup _)
    exact List.Sorted.lt_of_le hsorted hnodup
  · intro p
    unfold bucketKeys
    rw [List.mem_mergeSort, List.mem_dedup, List.mem_map]

end F1
